import Mathlib

/-!
# ESP32 sine-wave visualizer: embedding of `src/main.cpp`

The sketch samples a closed-form surrogate of the sine function at 16 display
columns, quantises every sample to one of 16 levels, picks a glyph for one of
the two LCD rows from a threshold ladder, and cycles between a drawing phase,
a statistics phase and a redraw pause.

Conventions of the embedding:

* `float`/`double` values are real numbers (`ℝ`); rounding is not modelled.
* `int` values are integers (`ℤ`); the one conversion from `double` to `int`
  (line 142) is defined only inside the 32-bit range, see `castInt`.
  `unsigned long` values are naturals below `2 ^ 32`, with subtraction taken
  modulo `2 ^ 32`.
* The globals and the function-local statics are the fields of `State`.
* The hardware clock is the field `clock` (milliseconds since boot, unbounded);
  `millis()` reads it modulo `2 ^ 32` and `delay(n)` advances it by `n`.
  Every other call is instantaneous.
* Every call to the LCD driver, to `delay` and to `digitalWrite` is appended to
  the field `log`, in program order.
-/

set_option autoImplicit false

namespace SineVisualizer

/-! ## Glyph bitmaps (lines 12-76) -/

/-- An 8-row bitmap, each row a 5-bit pattern. -/
abbrev Bitmap := List Nat

def wave_high : Bitmap := [31, 31, 31, 31, 0, 0, 0, 0]

def wave_low : Bitmap := [0, 0, 0, 0, 31, 31, 31, 31]

def wave_mid : Bitmap := [0, 0, 31, 31, 31, 31, 0, 0]

def wave_full : Bitmap := [31, 31, 31, 31, 31, 31, 31, 31]

def wave_peak_top : Bitmap := [31, 31, 31, 31, 31, 0, 0, 0]

def wave_peak_bottom : Bitmap := [0, 0, 0, 31, 31, 31, 31, 31]

/-! ## The LCD driver as a small state machine -/

/-- The calls the sketch makes on the `LiquidCrystal_I2C` object. -/
inductive LcdOp where
  | init
  | backlight
  | createChar (idx : Nat) (bits : Bitmap)
  | clear
  | setCursor (col row : Nat)
  | write (code : Nat)
  | print (s : String)
  deriving DecidableEq, Repr

/-- The character code of a space, what `lcd.print(" ")` stores in a cell. -/
def blank : Nat := 32

/-- Display memory: a cursor, the character code held by each cell (indexed by
column, then row), and the registered custom glyphs. -/
structure Lcd where
  cursor : Nat × Nat
  cells : Nat → Nat → Nat
  cgram : Nat → Option Bitmap

/-- Store one character code at the cursor and move the cursor one column right. -/
def Lcd.put (d : Lcd) (code : Nat) : Lcd :=
  { d with
    cells := fun c r => if c = d.cursor.1 ∧ r = d.cursor.2 then code else d.cells c r
    cursor := (d.cursor.1 + 1, d.cursor.2) }

/-- Effect of one driver call on the display memory. -/
def LcdOp.run (d : Lcd) : LcdOp → Lcd
  | .init => d
  | .backlight => d
  | .createChar idx bits =>
      { d with cgram := fun i => if i = idx then some bits else d.cgram i }
  | .clear => { d with cells := fun _ _ => blank, cursor := (0, 0) }
  | .setCursor col row => { d with cursor := (col, row) }
  | .write code => d.put code
  | .print s => (s.toUTF8.data.toList.map UInt8.toNat).foldl Lcd.put d

/-- Effect of a sequence of driver calls. -/
def runOps (ops : List LcdOp) (d : Lcd) : Lcd :=
  ops.foldl LcdOp.run d

/-- A powered-up display: every cell blank, no glyph registered. -/
def Lcd.fresh : Lcd :=
  { cursor := (0, 0), cells := fun _ _ => blank, cgram := fun _ => none }

/-! ## Program state and primitive effects -/

/-- Everything the sketch does to the outside world. -/
inductive Event where
  | lcd (op : LcdOp)
  | printFloat (v : ℝ) (digits : Nat)
  | delay (ms : Nat)
  | digitalWrite (pin : Nat) (v : Int)

/-- Globals (lines 79-81), the statics of `drawMovingIndicator` (lines 233-234),
the clock and the log of effects. -/
structure State where
  show_full_wave : Bool
  wave_displayed : Bool
  last_mode_switch : Nat
  indicator_pos : Int
  last_indicator_move : Nat
  clock : Nat
  log : List Event

def LED_PIN : Nat := 2

/-- The value of `millis()`: a 32-bit `unsigned long`. -/
def State.millis (s : State) : Nat := s.clock % 2 ^ 32

/-- Subtraction of two `unsigned long` values, modulo `2 ^ 32`. -/
def usub32 (a b : Nat) : Nat := (a % 2 ^ 32 + 2 ^ 32 - b % 2 ^ 32) % 2 ^ 32

def State.emit (s : State) (e : Event) : State := { s with log := s.log ++ [e] }

/-- One call on the LCD object. -/
def State.lcd (s : State) (op : LcdOp) : State := s.emit (.lcd op)

/-- The blocking `delay(ms)`. -/
def State.delay (s : State) (ms : Nat) : State :=
  { s with clock := s.clock + ms, log := s.log ++ [.delay ms] }

/-- The globals at their initialisers, at power-up. -/
def State.init : State :=
  { show_full_wave := true, wave_displayed := false, last_mode_switch := 0,
    indicator_pos := 0, last_indicator_move := 0, clock := 0, log := [] }

/-! ## Signal model and quantiser -/

/-- Source lines 84-86. -/
noncomputable def runModelInference (x : ℝ) : ℝ :=
  Real.sin x * 0.95 + 0.02 * Real.sin (x * 3)

/-- Least value of a 32-bit `int`. -/
def INT_MIN : ℤ := -2147483648

/-- Greatest value of a 32-bit `int`. -/
def INT_MAX : ℤ := 2147483647

/-- The conversion `(int)y` of a `double` to a 32-bit `int`: truncation toward
zero when the truncated value fits the `int` range. Outside that range C++
leaves the conversion undefined; `oor y` stands for whatever the platform
returns there, and every definition that reaches the cast carries `oor`. -/
noncomputable def castInt (oor : ℝ → ℤ) (y : ℝ) : ℤ :=
  let t := if 0 ≤ y then ⌊y⌋ else ⌈y⌉
  if INT_MIN ≤ t ∧ t ≤ INT_MAX then t else oor y

/-- One platform's out-of-range conversion: always `INT_MIN`, the x86
"integer indefinite" value. -/
def indefiniteCast : ℝ → ℤ := fun _ => INT_MIN

/-- The Arduino macro `constrain(amt, low, high)`. -/
def constrain (amt low high : ℤ) : ℤ :=
  if amt < low then low else if amt > high then high else amt

/-- Source line 134: the phase angle of a column. -/
noncomputable def columnAngle (col : Nat) : ℝ := ((col : ℝ) / 15.0) * 2.0 * Real.pi

/-- Source lines 142-147: the clamped level of an amplitude. -/
noncomputable def quantize (oor : ℝ → ℤ) (model_sine : ℝ) : ℤ :=
  let model_level := castInt oor ((model_sine + 1.0) * 8)
  let level := model_level
  constrain level 0 15

def setupLCD (s : State) : State :=
  let s := s.lcd .init
  let s := s.lcd .backlight
  let s := s.lcd (.createChar 0 wave_high)
  let s := s.lcd (.createChar 1 wave_low)
  let s := s.lcd (.createChar 2 wave_mid)
  let s := s.lcd (.createChar 3 wave_full)
  let s := s.lcd (.createChar 4 wave_peak_top)
  let s := s.lcd (.createChar 5 wave_peak_bottom)
  let s := s.lcd .clear
  let s := s.lcd (.setCursor 0 0)
  let s := s.lcd (.print "TensorFlow Sine")
  let s := s.lcd (.setCursor 0 1)
  let s := s.lcd (.print "Wave Visualizer")
  let s := s.delay 2500
  let s := s.lcd .clear
  let s := s.lcd (.setCursor 0 0)
  let s := s.lcd (.print "Full wave = 16")
  let s := s.lcd (.setCursor 0 1)
  let s := s.lcd (.print "columns (0->2π)")
  let s := s.delay 2500
  let s := s.lcd .clear
  let s := s.lcd (.setCursor 0 0)
  let s := s.lcd (.print "Height = Model")
  let s := s.lcd (.setCursor 0 1)
  let s := s.lcd (.print "Prediction")
  let s := s.delay 2000
  s.lcd .clear

/-- The driver calls recorded in a log, in order. -/
def lcdOps : List Event → List LcdOp
  | [] => []
  | .lcd op :: es => op :: lcdOps es
  | _ :: es => lcdOps es

/-- The glyph table of the display once `setupLCD` has run on a fresh display. -/
def registeredGlyph (idx : Nat) : Option Bitmap :=
  (runOps (lcdOps (setupLCD State.init).log) Lcd.fresh).cgram idx

/-! ## drawFullSineWave (lines 126-199) -/

/-- Source lines 150-192: the threshold ladder, as the four driver calls it makes. -/
def columnOps (col : Nat) (level : ℤ) : List LcdOp :=
  if level ≥ 12 then
    [.setCursor col 0, .write 4, .setCursor col 1, .print " "]
  else if level ≥ 10 then
    [.setCursor col 0, .write 0, .setCursor col 1, .print " "]
  else if level ≥ 8 then
    [.setCursor col 0, .write 2, .setCursor col 1, .print " "]
  else if level ≥ 6 then
    [.setCursor col 0, .print " ", .setCursor col 1, .write 0]
  else if level ≥ 4 then
    [.setCursor col 0, .print " ", .setCursor col 1, .write 2]
  else if level ≥ 2 then
    [.setCursor col 0, .print " ", .setCursor col 1, .write 1]
  else
    [.setCursor col 0, .print " ", .setCursor col 1, .write 5]

/-- The character codes the two cells of column `col` hold (top row, bottom row)
once the ladder has run for `level` on a display in state `d`. -/
def columnCells (col : Nat) (level : ℤ) (d : Lcd) : Nat × Nat :=
  ((runOps (columnOps col level) d).cells col 0, (runOps (columnOps col level) d).cells col 1)

/-- The effects of one iteration of the column loop, given the amplitude the
signal model returned for the column (lines 142-194). -/
noncomputable def columnEvents (oor : ℝ → ℤ) (col : Nat) (model_sine : ℝ) : List Event :=
  (columnOps col (quantize oor model_sine)).map Event.lcd ++ [Event.delay 100]

/-- One iteration of the loop at lines 132-195. The locals `actual_sine` and
`actual_level` (lines 138 and 143) are computed and never read, and are left
out. -/
noncomputable def drawColumn (oor : ℝ → ℤ) (s : State) (col : Nat) : State :=
  let x := columnAngle col
  let model_sine := runModelInference x
  let s := (columnOps col (quantize oor model_sine)).foldl State.lcd s
  s.delay 100

noncomputable def drawFullSineWave (oor : ℝ → ℤ) (s : State) : State :=
  if s.wave_displayed then s
  else
    let s := s.lcd .clear
    let s := (List.range 16).foldl (drawColumn oor) s
    let s := { s with wave_displayed := true }
    { s with last_mode_switch := s.millis }

/-! ## showWaveStats (lines 201-230) -/

/-- The value of `error` in iteration `i` of the loop at lines 209-217. -/
noncomputable def sampleError (i : Nat) : ℝ :=
  |runModelInference (((i : ℝ) / (32 : ℝ)) * 2.0 * Real.pi) -
    Real.sin (((i : ℝ) / (32 : ℝ)) * 2.0 * Real.pi)|

/-- One iteration of the loop at lines 209-217, on the pair
`(max_error, avg_error)`. -/
noncomputable def statsStep (acc : ℝ × ℝ) (i : Nat) : ℝ × ℝ :=
  let x := ((i : ℝ) / (32 : ℝ)) * 2.0 * Real.pi
  let model_output := runModelInference x
  let actual_sine := Real.sin x
  let error := |model_output - actual_sine|
  (max acc.1 error, acc.2 + error)

/-- Lines 205-218: the pair `(max_error, avg_error)` that is displayed. -/
noncomputable def waveStats : ℝ × ℝ :=
  let sample_count : Nat := 32
  let r := (List.range sample_count).foldl statsStep (0, 0)
  (r.1, r.2 / (sample_count : ℝ))

noncomputable def showWaveStats (s : State) : State :=
  let s := s.lcd .clear
  let max_error := waveStats.1
  let avg_error := waveStats.2
  let s := s.lcd (.setCursor 0 0)
  let s := s.lcd (.print "Max err: ")
  let s := s.emit (.printFloat max_error 3)
  let s := s.lcd (.setCursor 0 1)
  let s := s.lcd (.print "Avg err: ")
  let s := s.emit (.printFloat avg_error 3)
  s.delay 3000

/-! ## drawMovingIndicator (lines 232-244) -/

def drawMovingIndicator (s : State) : State :=
  if usub32 s.millis s.last_indicator_move > 500 then
    let s := s.emit (.digitalWrite LED_PIN (s.indicator_pos.tmod 2))
    let s := { s with indicator_pos := s.indicator_pos + 1 }
    let s := if s.indicator_pos ≥ 16 then { s with indicator_pos := 0 } else s
    { s with last_indicator_move := s.millis }
  else s

/-! ## loop (lines 273-299) -/

/-- The condition at line 278. -/
def statsGate (s : State) : Bool :=
  s.wave_displayed && decide (usub32 s.millis s.last_mode_switch > 8000)

/-- The body of the `if` at lines 279-290. -/
noncomputable def statsPhase (s : State) : State :=
  let s := showWaveStats s
  let s := { s with wave_displayed := false }
  let s := { s with last_mode_switch := s.millis }
  let s := s.lcd .clear
  let s := s.lcd (.setCursor 2 0)
  let s := s.lcd (.print "Redrawing")
  let s := s.lcd (.setCursor 4 1)
  let s := s.lcd (.print "wave...")
  s.delay 1500

/-- One tick of the control loop. -/
noncomputable def loop (oor : ℝ → ℤ) (s : State) : State :=
  let s :=
    if s.show_full_wave then
      let s := drawFullSineWave oor s
      let s := if statsGate s then statsPhase s else s
      drawMovingIndicator s
    else s
  s.delay 50

/-! ## Derived descriptions: event lists, boot state, sample states -/

/-- The effects of the draw phase: one `clear`, then the sixteen columns. -/
noncomputable def drawEvents (oor : ℝ → ℤ) : List Event :=
  Event.lcd .clear ::
    (List.range 16).flatMap
      (fun col => columnEvents oor col (runModelInference (columnAngle col)))

/-- Lines 246-271. The serial diagnostics and `pinMode` are outside the model:
only the one-second delay and `setupLCD` act on the state. -/
def setup (s : State) : State :=
  let s := s.delay 1000
  setupLCD s

/-- The state in which the first tick of `loop` starts. -/
def boot : State := setup State.init

/-- The value of `millis() - last_mode_switch`. -/
def elapsed (s : State) : Nat := usub32 s.millis s.last_mode_switch

/-- The effects of `showWaveStats`. -/
noncomputable def statsEvents : List Event :=
  [.lcd .clear, .lcd (.setCursor 0 0), .lcd (.print "Max err: "), .printFloat waveStats.1 3,
   .lcd (.setCursor 0 1), .lcd (.print "Avg err: "), .printFloat waveStats.2 3, .delay 3000]

/-- The effects of the redraw message (lines 285-290). -/
def redrawEvents : List Event :=
  [.lcd .clear, .lcd (.setCursor 2 0), .lcd (.print "Redrawing"), .lcd (.setCursor 4 1),
   .lcd (.print "wave..."), .delay 1500]

/-- The effects of `drawMovingIndicator` when called in state `s`. -/
def indicatorEvents (s : State) : List Event :=
  if usub32 s.millis s.last_indicator_move > 500 then
    [.digitalWrite LED_PIN (s.indicator_pos.tmod 2)]
  else []

/-- The columns named by the `setCursor` calls of a log, in order. -/
def cursorCols : List Event → List Nat
  | [] => []
  | .lcd (.setCursor col _) :: es => col :: cursorCols es
  | _ :: es => cursorCols es

/-- A state in the hold phase: the wave was finished at clock 9600 and the
clock now reads 17600, exactly 8000 ms later. -/
def holdState : State :=
  { show_full_wave := true, wave_displayed := true, last_mode_switch := 9600,
    indicator_pos := 0, last_indicator_move := 17600, clock := 17600, log := [] }

/-- A state right after a completed draw. -/
def shownState : State :=
  { show_full_wave := true, wave_displayed := true, last_mode_switch := 9600,
    indicator_pos := 1, last_indicator_move := 9600, clock := 9650, log := [] }

/-- A state one millisecond past the hold: the wave was finished at clock 9600
and the clock reads 17601. -/
def dueState : State :=
  { show_full_wave := true, wave_displayed := true, last_mode_switch := 9600,
    indicator_pos := 0, last_indicator_move := 17600, clock := 17601, log := [] }

/-! ## Display memory after one column -/

theorem space_bytes : (" ".toUTF8.data.toList.map UInt8.toNat) = [blank] := by decide

/-- The two cells of a column after the four driver calls of the top-row shape:
glyph above, space below. -/
theorem runOps_top (col g : Nat) (d : Lcd) :
    (runOps [.setCursor col 0, .write g, .setCursor col 1, .print " "] d).cells col 0 = g ∧
    (runOps [.setCursor col 0, .write g, .setCursor col 1, .print " "] d).cells col 1 = blank := by
  simp [runOps, LcdOp.run, Lcd.put, space_bytes]

/-- The two cells of a column after the four driver calls of the bottom-row
shape: space above, glyph below. -/
theorem runOps_bottom (col g : Nat) (d : Lcd) :
    (runOps [.setCursor col 0, .print " ", .setCursor col 1, .write g] d).cells col 0 = blank ∧
    (runOps [.setCursor col 0, .print " ", .setCursor col 1, .write g] d).cells col 1 = g := by
  simp [runOps, LcdOp.run, Lcd.put, space_bytes]

theorem registered_codes :
    registeredGlyph 0 = some wave_high ∧ registeredGlyph 1 = some wave_low ∧
    registeredGlyph 2 = some wave_mid ∧ registeredGlyph 3 = some wave_full ∧
    registeredGlyph 4 = some wave_peak_top ∧ registeredGlyph 5 = some wave_peak_bottom := by
  decide

/-- What the ladder leaves in the two cells of its column, branch by branch. -/
theorem columnCells_eq (col : Nat) (L : ℤ) (d : Lcd) :
    columnCells col L d =
      if L ≥ 12 then (4, blank) else if L ≥ 10 then (0, blank) else if L ≥ 8 then (2, blank)
      else if L ≥ 6 then (blank, 0) else if L ≥ 4 then (blank, 2)
      else if L ≥ 2 then (blank, 1) else (blank, 5) := by
  unfold columnCells columnOps
  split_ifs <;> first
    | exact Prod.ext (runOps_top col _ d).1 (runOps_top col _ d).2
    | exact Prod.ext (runOps_bottom col _ d).1 (runOps_bottom col _ d).2

/-! ## C1 -/

/-- C1: for every clamped level `L` in 0..15, on any display and in any column,
the glyph ladder of `drawFullSineWave` leaves exactly the pair (top row, bottom
row) of the band table: `L ≥ 12` gives (4, blank), 10..11 gives (0, blank),
8..9 gives (2, blank), 6..7 gives (blank, 0), 4..5 gives (blank, 2), 2..3 gives
(blank, 1), 0..1 gives (blank, 5); and `setupLCD` registers code 4 as the
peak-top glyph, 0 as top-half-filled, 2 as mid-filled, 1 as bottom-half-filled
and 5 as peak-bottom. -/
theorem glyph_ladder_table (col : Nat) (d : Lcd) (L : ℤ) (h0 : 0 ≤ L) (h15 : L ≤ 15) :
    (12 ≤ L → columnCells col L d = (4, blank)) ∧
    (10 ≤ L ∧ L ≤ 11 → columnCells col L d = (0, blank)) ∧
    (8 ≤ L ∧ L ≤ 9 → columnCells col L d = (2, blank)) ∧
    (6 ≤ L ∧ L ≤ 7 → columnCells col L d = (blank, 0)) ∧
    (4 ≤ L ∧ L ≤ 5 → columnCells col L d = (blank, 2)) ∧
    (2 ≤ L ∧ L ≤ 3 → columnCells col L d = (blank, 1)) ∧
    (0 ≤ L ∧ L ≤ 1 → columnCells col L d = (blank, 5)) ∧
    registeredGlyph 4 = some wave_peak_top ∧ registeredGlyph 0 = some wave_high ∧
    registeredGlyph 2 = some wave_mid ∧ registeredGlyph 1 = some wave_low ∧
    registeredGlyph 5 = some wave_peak_bottom := by
  rw [columnCells_eq]
  have hr := registered_codes
  refine ⟨?_, ?_, ?_, ?_, ?_, ?_, ?_, hr.2.2.2.2.1, hr.1, hr.2.2.1, hr.2.1, hr.2.2.2.2.2⟩
  all_goals
    intro h
    split_ifs <;> first | rfl | omega

/-- Level 15 in column 0, level 7 in column 7 and level 0 in column 11 of a
fresh display: peak-top above a blank, a blank above top-half, a blank above
peak-bottom. -/
theorem glyph_ladder_table_witness :
    columnCells 0 15 Lcd.fresh = (4, blank) ∧ columnCells 7 7 Lcd.fresh = (blank, 0) ∧
    columnCells 11 0 Lcd.fresh = (blank, 5) :=
  ⟨(glyph_ladder_table 0 Lcd.fresh 15 (by decide) (by decide)).1 (by decide),
   (glyph_ladder_table 7 Lcd.fresh 7 (by decide) (by decide)).2.2.2.1 (by decide),
   (glyph_ladder_table 11 Lcd.fresh 0 (by decide) (by decide)).2.2.2.2.2.2.1 (by decide)⟩

/-! ## Quantiser -/

theorem runModelInference_bound (x : ℝ) :
    -0.97 ≤ runModelInference x ∧ runModelInference x ≤ 0.97 := by
  unfold runModelInference
  have h1 := Real.sin_le_one x
  have h2 := Real.neg_one_le_sin x
  have h3 := Real.sin_le_one (x * 3)
  have h4 := Real.neg_one_le_sin (x * 3)
  constructor <;> norm_num <;> linarith

/-- The deviation from the true sine is a cubic in `sin x`. -/
theorem model_error_eq (x : ℝ) :
    runModelInference x - Real.sin x = 0.01 * Real.sin x - 0.08 * Real.sin x ^ 3 := by
  unfold runModelInference
  rw [mul_comm x 3, Real.sin_three_mul]
  ring

theorem model_error_le (x : ℝ) : |runModelInference x - Real.sin x| ≤ 0.07 := by
  rw [model_error_eq, abs_le]
  have h1 := Real.sin_le_one x
  have h2 := Real.neg_one_le_sin x
  have a1 : 0 ≤ Real.sin x + 1 := by linarith
  have a2 : 0 ≤ 1 - Real.sin x := by linarith
  constructor
  · norm_num
    nlinarith [mul_nonneg a2 (sq_nonneg (Real.sin x + 1/2)),
      mul_nonneg a1 (sq_nonneg (Real.sin x - 1/2))]
  · norm_num
    nlinarith [mul_nonneg a2 (sq_nonneg (Real.sin x + 1/2)),
      mul_nonneg a1 (sq_nonneg (Real.sin x - 1/2))]

/-! ## C4 -/

/-- C4: for every real phase angle `x`, the signal model
`0.95 * sin x + 0.02 * sin (3 x)` returns an amplitude in `[-1, 1]`. -/
theorem runModelInference_mem_unit (x : ℝ) :
    runModelInference x = 0.95 * Real.sin x + 0.02 * Real.sin (3 * x) ∧
    -1 ≤ runModelInference x ∧ runModelInference x ≤ 1 := by
  have h := runModelInference_bound x
  refine ⟨?_, ?_, ?_⟩
  · unfold runModelInference
    rw [mul_comm x 3]
    ring
  · have : (-1 : ℝ) ≤ -0.97 := by norm_num
    linarith [h.1]
  · have : (0.97 : ℝ) ≤ 1 := by norm_num
    linarith [h.2]

/-! ## Statistics -/

theorem statsStep_eq (acc : ℝ × ℝ) (i : Nat) :
    statsStep acc i = (max acc.1 (sampleError i), acc.2 + sampleError i) := rfl

theorem sampleError_le (i : Nat) : sampleError i ≤ 0.07 :=
  model_error_le _

/-- Sample 8 sits at a quarter turn, where the model is off by the full 0.07. -/
theorem sampleError_eight : sampleError 8 = 0.07 := by
  unfold sampleError
  rw [model_error_eq]
  have h : ((8 : ℕ) : ℝ) / 32 * 2.0 * Real.pi = Real.pi / 2 := by
    push_cast
    ring
  rw [h, Real.sin_pi_div_two]
  norm_num

/-- The running maximum never exceeds a bound that holds for the start value
and for every sample. -/
theorem foldl_statsStep_le (B : ℝ) (l : List Nat) :
    ∀ acc : ℝ × ℝ, acc.1 ≤ B → (∀ i ∈ l, sampleError i ≤ B) →
      (l.foldl statsStep acc).1 ≤ B := by
  induction l with
  | nil => intro acc h _; simpa using h
  | cons i l ih =>
    intro acc h hl
    rw [List.foldl_cons]
    apply ih
    · rw [statsStep_eq]
      exact max_le h (hl i (List.mem_cons_self i l))
    · intro j hj
      exact hl j (List.mem_cons_of_mem i hj)

/-- The running maximum never decreases. -/
theorem foldl_statsStep_ge_acc (l : List Nat) :
    ∀ acc : ℝ × ℝ, acc.1 ≤ (l.foldl statsStep acc).1 := by
  induction l with
  | nil => intro acc; simp
  | cons i l ih =>
    intro acc
    rw [List.foldl_cons]
    refine le_trans ?_ (ih _)
    rw [statsStep_eq]
    exact le_max_left _ _

/-- The running maximum dominates every sample it has seen. -/
theorem foldl_statsStep_ge_mem (l : List Nat) :
    ∀ (acc : ℝ × ℝ) (i : Nat), i ∈ l → sampleError i ≤ (l.foldl statsStep acc).1 := by
  induction l with
  | nil => intro acc i hi; simp at hi
  | cons j l ih =>
    intro acc i hi
    rw [List.foldl_cons]
    rcases List.mem_cons.mp hi with h | h
    · subst h
      refine le_trans ?_ (foldl_statsStep_ge_acc l _)
      rw [statsStep_eq]
      exact le_max_right _ _
    · exact ih _ i h

/-- The displayed `max_error` is exactly 0.07. -/
theorem waveStats_max : waveStats.1 = 0.07 := by
  unfold waveStats
  simp only []
  apply le_antisymm
  · apply foldl_statsStep_le
    · norm_num
    · intro i _
      exact sampleError_le i
  · rw [← sampleError_eight]
    apply foldl_statsStep_ge_mem
    simp

/-! ## C5 -/

/-- C5 (as the code has it): over the 32 sample angles `(i / 32) * 2π`,
`i = 0..31`, the maximum of `|runModelInference x - sin x|` computed by
`showWaveStats` is exactly 0.07: no sample exceeds it, sample 8 attains it, and
the displayed `max_error` is therefore within `1e-4` of 0.07. -/
theorem waveStats_max_error :
    (∀ i, i < 32 → sampleError i ≤ waveStats.1) ∧ sampleError 8 = waveStats.1 ∧
    waveStats.1 = 0.07 ∧ |waveStats.1 - 0.07| ≤ 0.0001 := by
  rw [waveStats_max]
  refine ⟨fun i _ => sampleError_le i, sampleError_eight, rfl, ?_⟩
  norm_num

/-- The bound holds at sample 31, the last one. -/
theorem waveStats_max_error_witness : sampleError 31 ≤ waveStats.1 :=
  waveStats_max_error.1 31 (by decide)

/-- C5 (as the specification has it) fails: the displayed `max_error` is 0.07,
attained at sample 8, which is not within `1e-4` of 0.0598. -/
theorem waveStats_max_error_not_0598 :
    sampleError 8 = 0.07 ∧ waveStats.1 = 0.07 ∧ ¬ |waveStats.1 - 0.0598| ≤ 0.0001 := by
  refine ⟨sampleError_eight, waveStats_max, ?_⟩
  rw [waveStats_max]
  norm_num
  rw [abs_of_pos] <;> norm_num

theorem lcdOps_append (xs ys : List Event) : lcdOps (xs ++ ys) = lcdOps xs ++ lcdOps ys := by
  induction xs with
  | nil => rfl
  | cons e xs ih => cases e <;> simp [lcdOps, ih]

theorem lcdOps_map_lcd (ops : List LcdOp) : lcdOps (ops.map Event.lcd) = ops := by
  induction ops with
  | nil => rfl
  | cons o ops ih => simp [lcdOps, ih]

theorem lcdOps_columnEvents (oor : ℝ → ℤ) (col : Nat) (a : ℝ) :
    lcdOps (columnEvents oor col a) = columnOps col (quantize oor a) := by
  unfold columnEvents
  rw [lcdOps_append, lcdOps_map_lcd]
  simp [lcdOps]

theorem foldl_lcd (ops : List LcdOp) :
    ∀ s : State, ops.foldl State.lcd s = { s with log := s.log ++ ops.map Event.lcd } := by
  induction ops with
  | nil => intro s; simp
  | cons o ops ih =>
    intro s
    rw [List.foldl_cons, ih]
    simp [State.lcd, State.emit]

theorem drawColumn_eq (oor : ℝ → ℤ) (s : State) (col : Nat) :
    drawColumn oor s col =
      { s with
        log := s.log ++ columnEvents oor col (runModelInference (columnAngle col))
        clock := s.clock + 100 } := by
  unfold drawColumn columnEvents
  simp only []
  rw [foldl_lcd]
  simp [State.delay]

theorem foldl_drawColumn (oor : ℝ → ℤ) (l : List Nat) :
    ∀ s : State, l.foldl (drawColumn oor) s =
      { s with
        log := s.log ++
          l.flatMap (fun col => columnEvents oor col (runModelInference (columnAngle col)))
        clock := s.clock + 100 * l.length } := by
  induction l with
  | nil => intro s; simp
  | cons c l ih =>
    intro s
    rw [List.foldl_cons, ih, drawColumn_eq oor]
    simp [List.flatMap_cons]
    ring

theorem drawFullSineWave_eq (oor : ℝ → ℤ) (s : State) (h : s.wave_displayed = false) :
    drawFullSineWave oor s =
      { s with
        log := s.log ++ drawEvents oor
        clock := s.clock + 1600
        wave_displayed := true
        last_mode_switch := (s.clock + 1600) % 2 ^ 32 } := by
  unfold drawFullSineWave
  rw [if_neg (by simp [h])]
  simp only []
  rw [foldl_drawColumn oor]
  simp [State.lcd, State.emit, State.millis, drawEvents]

theorem showWaveStats_eq (s : State) :
    showWaveStats s = { s with log := s.log ++ statsEvents, clock := s.clock + 3000 } := by
  simp [showWaveStats, statsEvents, State.lcd, State.emit, State.delay]

theorem statsPhase_eq (s : State) :
    statsPhase s =
      { s with
        log := s.log ++ statsEvents ++ redrawEvents
        clock := s.clock + 4500
        wave_displayed := false
        last_mode_switch := (s.clock + 3000) % 2 ^ 32 } := by
  unfold statsPhase
  rw [showWaveStats_eq]
  simp [redrawEvents, State.lcd, State.emit, State.delay, State.millis]

theorem drawMovingIndicator_frame (s : State) :
    (drawMovingIndicator s).show_full_wave = s.show_full_wave ∧
    (drawMovingIndicator s).wave_displayed = s.wave_displayed ∧
    (drawMovingIndicator s).last_mode_switch = s.last_mode_switch ∧
    (drawMovingIndicator s).clock = s.clock ∧
    (drawMovingIndicator s).log = s.log ++ indicatorEvents s := by
  unfold drawMovingIndicator indicatorEvents
  by_cases h : usub32 s.millis s.last_indicator_move > 500
  · rw [if_pos h, if_pos h]
    by_cases h16 : s.indicator_pos + 1 ≥ 16 <;> simp [State.emit, State.millis, h16]
  · rw [if_neg h, if_neg h]
    simp

theorem usub32_self (a : Nat) : usub32 a a = 0 := by
  unfold usub32
  rw [Nat.add_sub_cancel_left]
  simp

theorem statsGate_eq (s : State) :
    statsGate s = (s.wave_displayed && decide (elapsed s > 8000)) := rfl

theorem statsGate_after_draw (oor : ℝ → ℤ) (s : State) (h : s.wave_displayed = false) :
    statsGate (drawFullSineWave oor s) = false := by
  rw [drawFullSineWave_eq oor s h]
  simp [statsGate, State.millis, usub32_self]

theorem loop_draw (oor : ℝ → ℤ) (s : State) (hs : s.show_full_wave = true)
    (h : s.wave_displayed = false) :
    loop oor s = (drawMovingIndicator (drawFullSineWave oor s)).delay 50 := by
  have hs2 : (drawFullSineWave oor s).show_full_wave = true := by
    rw [drawFullSineWave_eq oor s h]; exact hs
  unfold loop
  simp only [hs, if_true, statsGate_after_draw oor s h]
  simp

theorem drawFullSineWave_noop (oor : ℝ → ℤ) (s : State) (h : s.wave_displayed = true) :
    drawFullSineWave oor s = s := by
  unfold drawFullSineWave
  rw [if_pos h]

theorem loop_idle (oor : ℝ → ℤ) (s : State) (hs : s.show_full_wave = true)
    (h : s.wave_displayed = true)
    (hg : elapsed s ≤ 8000) : loop oor s = (drawMovingIndicator s).delay 50 := by
  unfold loop
  have : statsGate s = false := by
    rw [statsGate_eq, h]; simp; exact hg
  simp [hs, drawFullSineWave_noop oor s h, this]

theorem loop_stats (oor : ℝ → ℤ) (s : State) (hs : s.show_full_wave = true)
    (h : s.wave_displayed = true)
    (hg : 8000 < elapsed s) : loop oor s = (drawMovingIndicator (statsPhase s)).delay 50 := by
  unfold loop
  have : statsGate s = true := by
    rw [statsGate_eq, h]; simp; exact hg
  simp [hs, drawFullSineWave_noop oor s h, this]

/-! ## C3 -/

/-- Whatever the level, the ladder makes the same four calls: cursor to the top
cell, one write, cursor to the bottom cell, one write; one of the writes is a
space and the other is one of the glyph codes 0, 1, 2, 4, 5. -/
theorem columnOps_shape (col : Nat) (L : ℤ) :
    ∃ g : Nat, (g = 0 ∨ g = 1 ∨ g = 2 ∨ g = 4 ∨ g = 5) ∧
      (columnOps col L = [.setCursor col 0, .write g, .setCursor col 1, .print " "] ∨
       columnOps col L = [.setCursor col 0, .print " ", .setCursor col 1, .write g]) := by
  unfold columnOps
  split_ifs
  · exact ⟨4, by simp, Or.inl rfl⟩
  · exact ⟨0, by simp, Or.inl rfl⟩
  · exact ⟨2, by simp, Or.inl rfl⟩
  · exact ⟨0, by simp, Or.inr rfl⟩
  · exact ⟨2, by simp, Or.inr rfl⟩
  · exact ⟨1, by simp, Or.inr rfl⟩
  · exact ⟨5, by simp, Or.inr rfl⟩

/-- C3: for every column, every real amplitude (inside or outside `[-1, 1]`,
inside or outside the range of the `int` conversion) and every prior display
content, the column step of `drawFullSineWave`
(quantise, clamp, ladder) makes one glyph write and one blank write, and leaves
a registered custom glyph in exactly one of the two cells of the column and a
blank in the other: never two glyphs, never two blanks. -/
theorem column_one_glyph (oor : ℝ → ℤ) (col : Nat) (a : ℝ) (d : Lcd) :
    ∃ g : Nat, g ≠ blank ∧ (registeredGlyph g).isSome = true ∧
      ((lcdOps (columnEvents oor col a) =
            [.setCursor col 0, .write g, .setCursor col 1, .print " "] ∧
          (runOps (lcdOps (columnEvents oor col a)) d).cells col 0 = g ∧
          (runOps (lcdOps (columnEvents oor col a)) d).cells col 1 = blank) ∨
        (lcdOps (columnEvents oor col a) =
            [.setCursor col 0, .print " ", .setCursor col 1, .write g] ∧
          (runOps (lcdOps (columnEvents oor col a)) d).cells col 0 = blank ∧
          (runOps (lcdOps (columnEvents oor col a)) d).cells col 1 = g)) := by
  rw [lcdOps_columnEvents oor]
  obtain ⟨g, hg, hshape⟩ := columnOps_shape col (quantize oor a)
  refine ⟨g, ?_, ?_, ?_⟩
  · rcases hg with h | h | h | h | h <;> subst h <;> decide
  · rcases hg with h | h | h | h | h <;> subst h <;> decide
  · rcases hshape with h | h
    · left
      rw [h]
      exact ⟨rfl, runOps_top col g d⟩
    · right
      rw [h]
      exact ⟨rfl, runOps_bottom col g d⟩

/-! ## C9 -/

/-- C9: for every column index `c`, the column step of `drawFullSineWave`
feeds the signal model the angle `(c / 15) * 2π`, with real division; column 0
maps to angle 0, column 15 to `2π`, and column 7 to `(7 / 15) * 2π`, which is
within 0.001 of 2.932 (and so is not the 0 an integer division would give). -/
theorem column_angle (oor : ℝ → ℤ) (s : State) (c : Nat) :
    (drawColumn oor s c).log =
      s.log ++ columnEvents oor c (runModelInference (((c : ℝ) / 15) * (2 * Real.pi))) ∧
    columnAngle c = ((c : ℝ) / 15) * (2 * Real.pi) ∧
    columnAngle 0 = 0 ∧ columnAngle 15 = 2 * Real.pi ∧
    columnAngle 7 = (7 / 15) * (2 * Real.pi) ∧ |columnAngle 7 - 2.932| < 0.001 := by
  have hc : ∀ n : Nat, columnAngle n = ((n : ℝ) / 15) * (2 * Real.pi) := by
    intro n
    unfold columnAngle
    ring
  refine ⟨?_, hc c, ?_, ?_, ?_, ?_⟩
  · rw [drawColumn_eq oor, hc]
  · rw [hc]; norm_num
  · rw [hc]; norm_num
  · rw [hc]; norm_num
  · rw [hc]
    have h1 := Real.pi_gt_d6
    have h2 := Real.pi_lt_d6
    rw [abs_lt]
    constructor <;> norm_num <;> linarith

/-! ## C7 -/

/-- C7: in every state in which `wave_displayed` is true, `drawFullSineWave`
returns the state unchanged: nothing is appended to the log (no clear, cursor
move, glyph or text write, no delay), the clock, `wave_displayed` and
`last_mode_switch` keep their values, and any number of calls leaves the state
as it was. -/
theorem drawFullSineWave_guard (oor : ℝ → ℤ) (s : State) (h : s.wave_displayed = true) :
    drawFullSineWave oor s = s ∧ (drawFullSineWave oor s).log = s.log ∧
    (drawFullSineWave oor s).clock = s.clock ∧
    (drawFullSineWave oor s).wave_displayed = s.wave_displayed ∧
    (drawFullSineWave oor s).last_mode_switch = s.last_mode_switch ∧
    ∀ n : Nat, (drawFullSineWave oor)^[n] s = s := by
  have h1 := drawFullSineWave_noop oor s h
  refine ⟨h1, by rw [h1], by rw [h1], by rw [h1], by rw [h1], ?_⟩
  intro n
  induction n with
  | zero => rfl
  | succ n ih => rw [Function.iterate_succ_apply', ih, h1]

/-- Three calls in a row right after a completed draw. -/
theorem drawFullSineWave_guard_witness :
    (drawFullSineWave indefiniteCast)^[3] shownState = shownState :=
  (drawFullSineWave_guard indefiniteCast shownState rfl).2.2.2.2.2 3

/-! ## C10 -/

theorem usub32_wrap (t0 d : Nat) (hd : d < 2 ^ 32) :
    usub32 ((t0 + d) % 2 ^ 32) (t0 % 2 ^ 32) = d := by
  unfold usub32
  norm_num at hd ⊢
  omega

/-- C10: with `millis()` and `last_mode_switch` 32-bit values and subtraction
modulo `2 ^ 32`, if the timestamp was recorded at true time `t0` and the true
time is now `t0 + d` with `d < 2 ^ 32`, then `millis() - last_mode_switch`
evaluates to `d`, whether or not the clock wrapped in between, and the gate
tests `d > 8000`. -/
theorem elapsed_across_wraparound (t0 d : Nat) (hd : d < 2 ^ 32) :
    usub32 ((t0 + d) % 2 ^ 32) (t0 % 2 ^ 32) = d ∧
    ∀ s : State, s.clock = t0 + d → s.last_mode_switch = t0 % 2 ^ 32 →
      elapsed s = d ∧ statsGate s = (s.wave_displayed && decide (d > 8000)) := by
  refine ⟨usub32_wrap t0 d hd, ?_⟩
  intro s hc hl
  have he : elapsed s = d := by
    unfold elapsed State.millis
    rw [hc, hl]
    exact usub32_wrap t0 d hd
  exact ⟨he, by rw [statsGate_eq, he]⟩

/-- A timestamp taken 100 ms before the 32-bit clock wraps, read 9000 ms later:
the clock reads 8900, the difference is still 9000. -/
theorem elapsed_across_wraparound_witness :
    (4294967196 + 9000) % 2 ^ 32 = 8900 ∧
    usub32 ((4294967196 + 9000) % 2 ^ 32) (4294967196 % 2 ^ 32) = 9000 :=
  ⟨by norm_num, (elapsed_across_wraparound 4294967196 9000 (by norm_num)).1⟩

/-! ## Ticks of the control loop -/

theorem loop_show_full_wave (oor : ℝ → ℤ) (s : State) :
    (loop oor s).show_full_wave = s.show_full_wave := by
  by_cases hs : s.show_full_wave = true
  · by_cases hw : s.wave_displayed = true
    · by_cases hg : 8000 < elapsed s
      · rw [loop_stats oor s hs hw hg]
        simp [State.delay, (drawMovingIndicator_frame _).1, statsPhase_eq]
      · rw [loop_idle oor s hs hw (by omega)]
        simp [State.delay, (drawMovingIndicator_frame _).1]
    · have hw2 : s.wave_displayed = false := by simpa using hw
      rw [loop_draw oor s hs hw2]
      simp [State.delay, (drawMovingIndicator_frame _).1, drawFullSineWave_eq oor s hw2]
  · have hs2 : s.show_full_wave = false := by simpa using hs
    simp [loop, hs2, State.delay]

/-- A tick that starts with no wave on the display draws it. -/
theorem loop_draw_fields (oor : ℝ → ℤ) (s : State) (hs : s.show_full_wave = true)
    (hw : s.wave_displayed = false) :
    (loop oor s).wave_displayed = true ∧
    (loop oor s).last_mode_switch = (s.clock + 1600) % 2 ^ 32 ∧
    (loop oor s).clock = s.clock + 1650 ∧
    (loop oor s).log =
      s.log ++ drawEvents oor ++ indicatorEvents (drawFullSineWave oor s) ++ [Event.delay 50] := by
  rw [loop_draw oor s hs hw]
  obtain ⟨_, f2, f3, f4, f5⟩ := drawMovingIndicator_frame (drawFullSineWave oor s)
  simp only [State.delay]
  rw [f2, f3, f4, f5, drawFullSineWave_eq oor s hw]
  exact ⟨rfl, rfl, rfl, rfl⟩

/-- A tick inside the hold leaves the flags alone. -/
theorem loop_idle_fields (oor : ℝ → ℤ) (s : State) (hs : s.show_full_wave = true)
    (hw : s.wave_displayed = true) (hg : elapsed s ≤ 8000) :
    (loop oor s).wave_displayed = true ∧
    (loop oor s).last_mode_switch = s.last_mode_switch ∧
    (loop oor s).clock = s.clock + 50 ∧
    (loop oor s).log = s.log ++ indicatorEvents s ++ [Event.delay 50] := by
  rw [loop_idle oor s hs hw hg]
  obtain ⟨_, f2, f3, f4, f5⟩ := drawMovingIndicator_frame s
  refine ⟨?_, ?_, ?_, ?_⟩
  · simp [State.delay, f2, hw]
  · simp [State.delay, f3]
  · simp [State.delay, f4]
  · simp only [State.delay, f5]

/-- A tick past the hold shows the statistics and the redraw message. -/
theorem loop_stats_fields (oor : ℝ → ℤ) (s : State) (hs : s.show_full_wave = true)
    (hw : s.wave_displayed = true) (hg : 8000 < elapsed s) :
    (loop oor s).wave_displayed = false ∧
    (loop oor s).last_mode_switch = (s.clock + 3000) % 2 ^ 32 ∧
    (loop oor s).clock = s.clock + 4550 ∧
    (loop oor s).log =
      s.log ++ statsEvents ++ redrawEvents ++ indicatorEvents (statsPhase s) ++
        [Event.delay 50] := by
  rw [loop_stats oor s hs hw hg]
  obtain ⟨_, f2, f3, f4, f5⟩ := drawMovingIndicator_frame (statsPhase s)
  simp only [State.delay]
  rw [f2, f3, f4, f5, statsPhase_eq]
  exact ⟨rfl, rfl, rfl, rfl⟩

theorem elapsed_after_idle (oor : ℝ → ℤ) (s : State) (hs : s.show_full_wave = true)
    (hw : s.wave_displayed = true) (hg : elapsed s ≤ 8000) :
    elapsed (loop oor s) = elapsed s + 50 := by
  obtain ⟨_, f2, f3, _⟩ := loop_idle_fields oor s hs hw hg
  unfold elapsed State.millis usub32 at *
  rw [f2, f3]
  norm_num at hg ⊢
  omega

/-- While the hold lasts, `k` ticks add `50 * k` ms to the elapsed time and
touch neither flag. -/
theorem idle_run (oor : ℝ → ℤ) (s : State) (hs : s.show_full_wave = true)
    (hw : s.wave_displayed = true)
    (k : Nat) (hk : elapsed s + 50 * k ≤ 8050) :
    ((loop oor)^[k] s).show_full_wave = true ∧ ((loop oor)^[k] s).wave_displayed = true ∧
    elapsed ((loop oor)^[k] s) = elapsed s + 50 * k := by
  induction k with
  | zero => exact ⟨hs, hw, rfl⟩
  | succ k ih =>
    obtain ⟨i1, i2, i3⟩ := ih (by omega)
    have hg : elapsed ((loop oor)^[k] s) ≤ 8000 := by omega
    rw [Function.iterate_succ_apply']
    refine ⟨?_, (loop_idle_fields oor _ i1 i2 hg).1, ?_⟩
    · rw [loop_show_full_wave oor, i1]
    · rw [elapsed_after_idle oor _ i1 i2 hg, i3]
      ring

/-- From any state of the hold, the statistics tick comes within 162 ticks. -/
theorem stats_within (oor : ℝ → ℤ) (s : State) (hs : s.show_full_wave = true)
    (hw : s.wave_displayed = true) :
    ∃ n, 1 ≤ n ∧ n ≤ 162 ∧ ((loop oor)^[n] s).wave_displayed = false := by
  by_cases hg : 8000 < elapsed s
  · exact ⟨1, le_refl 1, by norm_num, (loop_stats_fields oor s hs hw hg).1⟩
  · obtain ⟨i1, i2, i3⟩ := idle_run oor s hs hw ((8000 - elapsed s) / 50 + 1) (by omega)
    refine ⟨(8000 - elapsed s) / 50 + 1 + 1, by omega, by omega, ?_⟩
    rw [Function.iterate_succ_apply']
    exact (loop_stats_fields oor _ i1 i2 (by omega)).1

theorem iterate_show_full_wave (oor : ℝ → ℤ) (s : State) (k : Nat) :
    ((loop oor)^[k] s).show_full_wave = s.show_full_wave := by
  induction k with
  | zero => rfl
  | succ k ih => rw [Function.iterate_succ_apply', loop_show_full_wave oor, ih]

/-- The flag `wave_displayed` flips within 162 ticks, from any state. -/
theorem flag_flips (oor : ℝ → ℤ) (s : State) (hs : s.show_full_wave = true) :
    ∃ n, 1 ≤ n ∧ n ≤ 162 ∧ ((loop oor)^[n] s).wave_displayed = !s.wave_displayed := by
  by_cases hw : s.wave_displayed = true
  · obtain ⟨n, h1, h2, h3⟩ := stats_within oor s hs hw
    exact ⟨n, h1, h2, by rw [h3, hw]; rfl⟩
  · have hw2 : s.wave_displayed = false := by simpa using hw
    exact ⟨1, le_refl 1, by norm_num, by
      rw [hw2]; exact (loop_draw_fields oor s hs hw2).1⟩

theorem boot_fields :
    boot.show_full_wave = true ∧ boot.wave_displayed = false ∧ boot.clock = 8000 ∧
    boot.last_mode_switch = 0 := by
  decide

theorem elapsed_of_fields (s : State) (c l : Nat) (hc : s.clock = c)
    (hl : s.last_mode_switch = l) : elapsed s = usub32 (c % 2 ^ 32) l := by
  subst hc hl
  rfl

/-- The first tick after boot: the wave is drawn by clock 9600, the tick ends
at 9650. -/
theorem first_tick (oor : ℝ → ℤ) :
    (loop oor boot).show_full_wave = true ∧ (loop oor boot).wave_displayed = true ∧
    (loop oor boot).last_mode_switch = 9600 ∧ (loop oor boot).clock = 9650 ∧
    elapsed (loop oor boot) = 50 := by
  obtain ⟨b1, b2, b3, _⟩ := boot_fields
  obtain ⟨f1, f2, f3, _⟩ := loop_draw_fields oor boot b1 b2
  have f2b : (loop oor boot).last_mode_switch = 9600 := by
    rw [f2, b3]
    norm_num
  have f3b : (loop oor boot).clock = 9650 := by rw [f3, b3]
  refine ⟨by rw [loop_show_full_wave oor, b1], f1, f2b, f3b, ?_⟩
  rw [elapsed_of_fields _ 9650 9600 f3b f2b]
  unfold usub32
  norm_num

/-- The boot run: elapsed time is `50 * k` after `k` ticks, for `1 ≤ k ≤ 161`. -/
theorem boot_run (oor : ℝ → ℤ) (k : Nat) (h1 : 1 ≤ k) (h2 : k ≤ 161) :
    ((loop oor)^[k] boot).show_full_wave = true ∧
    ((loop oor)^[k] boot).wave_displayed = true ∧
    elapsed ((loop oor)^[k] boot) = 50 * k := by
  obtain ⟨f0, f1, _, _, f4⟩ := first_tick oor
  obtain ⟨j, rfl⟩ : ∃ j, k = j + 1 := ⟨k - 1, by omega⟩
  obtain ⟨i1, i2, i3⟩ := idle_run oor (loop oor boot) f0 f1 j (by rw [f4]; omega)
  rw [Function.iterate_succ_apply]
  exact ⟨i1, i2, by rw [i3, f4]; omega⟩

theorem cursorCols_append (xs ys : List Event) :
    cursorCols (xs ++ ys) = cursorCols xs ++ cursorCols ys := by
  induction xs with
  | nil => rfl
  | cons e xs ih =>
    cases e with
    | lcd op => cases op <;> simp [cursorCols, ih]
    | printFloat v n => simp [cursorCols, ih]
    | delay ms => simp [cursorCols, ih]
    | digitalWrite p v => simp [cursorCols, ih]

/-- Each column step moves the cursor to its own column twice. -/
theorem cursorCols_columnEvents (oor : ℝ → ℤ) (col : Nat) (a : ℝ) :
    cursorCols (columnEvents oor col a) = [col, col] := by
  unfold columnEvents
  obtain ⟨g, _, h | h⟩ := columnOps_shape col (quantize oor a) <;>
    rw [h] <;> simp [cursorCols]

theorem cursorCols_columns (oor : ℝ → ℤ) (f : Nat → ℝ) (l : List Nat) :
    cursorCols (l.flatMap (fun col => columnEvents oor col (f col))) =
      l.flatMap (fun col => [col, col]) := by
  induction l with
  | nil => rfl
  | cons c l ih =>
    rw [List.flatMap_cons, List.flatMap_cons, cursorCols_append, cursorCols_columnEvents oor, ih]

/-- The draw phase visits the columns from 0 to 15, in increasing order, moving
the cursor into each of them twice. -/
theorem cursorCols_drawEvents (oor : ℝ → ℤ) :
    cursorCols (drawEvents oor) = (List.range 16).flatMap (fun col => [col, col]) := by
  unfold drawEvents
  exact cursorCols_columns oor (fun col => runModelInference (columnAngle col)) (List.range 16)

theorem holdState_indicator : indicatorEvents holdState = [] := by
  unfold indicatorEvents
  rw [if_neg]
  decide

/-! ## C6 -/

/-- C6 (as the code has it): in a tick of `loop` that starts with
`wave_displayed` true, the controller enters the statistics phase (runs
`showWaveStats`, then the redraw message, and clears `wave_displayed`) if and
only if strictly more than 8000 ms have elapsed since `last_mode_switch`; with
8000 ms or less the tick leaves both `wave_displayed` and `last_mode_switch`
as they were and writes nothing to the display. -/
theorem stats_gate_strict (oor : ℝ → ℤ) (s : State) (hs : s.show_full_wave = true)
    (hw : s.wave_displayed = true) :
    ((loop oor s).wave_displayed = false ↔ 8000 < usub32 s.millis s.last_mode_switch) ∧
    (8000 < usub32 s.millis s.last_mode_switch →
      (loop oor s).log =
        s.log ++ statsEvents ++ redrawEvents ++ indicatorEvents (statsPhase s) ++
          [Event.delay 50]) ∧
    (usub32 s.millis s.last_mode_switch ≤ 8000 →
      (loop oor s).wave_displayed = true ∧ (loop oor s).last_mode_switch = s.last_mode_switch ∧
      (loop oor s).log = s.log ++ indicatorEvents s ++ [Event.delay 50]) := by
  refine ⟨?_, ?_, ?_⟩
  · constructor
    · intro h
      by_contra hg
      have := (loop_idle_fields oor s hs hw (by unfold elapsed; omega)).1
      rw [h] at this
      exact Bool.noConfusion this
    · intro hg
      exact (loop_stats_fields oor s hs hw hg).1
  · intro hg
    exact (loop_stats_fields oor s hs hw hg).2.2.2
  · intro hg
    obtain ⟨h1, h2, _, h4⟩ := loop_idle_fields oor s hs hw hg
    exact ⟨h1, h2, h4⟩

/-- At 8001 ms the statistics phase is entered. -/
theorem stats_gate_strict_witness :
    usub32 dueState.millis dueState.last_mode_switch = 8001 ∧
    (loop indefiniteCast dueState).wave_displayed = false :=
  ⟨by decide, (stats_gate_strict indefiniteCast dueState rfl rfl).1.mpr (by decide)⟩

/-- C6 (as the specification has it) fails at exactly 8000 ms: in `holdState`
the wave is displayed and `millis() - last_mode_switch` is 8000, yet the tick
only runs the final `delay(50)` and leaves `wave_displayed` true. The boot run
reaches such a state: 160 ticks after boot the elapsed time is exactly 8000 ms
and the next tick does not enter the statistics phase. -/
theorem stats_gate_not_at_8000 :
    holdState.show_full_wave = true ∧ holdState.wave_displayed = true ∧
    usub32 holdState.millis holdState.last_mode_switch = 8000 ∧
    (loop indefiniteCast holdState).wave_displayed = true ∧
    (loop indefiniteCast holdState).log = [Event.delay 50] ∧
    ¬ ((loop indefiniteCast holdState).wave_displayed = false ↔
        8000 ≤ usub32 holdState.millis holdState.last_mode_switch) ∧
    elapsed ((loop indefiniteCast)^[160] boot) = 8000 ∧
    (loop indefiniteCast ((loop indefiniteCast)^[160] boot)).wave_displayed = true := by
  have he : elapsed holdState = 8000 := by decide
  obtain ⟨h1, _, _, h4⟩ := loop_idle_fields indefiniteCast holdState rfl rfl (by rw [he])
  obtain ⟨r1, r2, r3⟩ := boot_run indefiniteCast 160 (by norm_num) (by norm_num)
  refine ⟨rfl, rfl, he, h1, ?_, ?_, r3, ?_⟩
  · rw [h4, holdState_indicator]
    rfl
  · intro h
    have h2 := h.mpr
      (by rw [show usub32 holdState.millis holdState.last_mode_switch = 8000 from he])
    rw [h1] at h2
    exact Bool.noConfusion h2
  · exact (loop_idle_fields indefiniteCast _ r1 r2 (by rw [r3])).1

/-! ## C8 -/

/-- C8: from a state without a wave on the display (the boot state is one), a
tick of `loop` clears the display, draws columns 0..15 in increasing order,
sets `wave_displayed`, stores in `last_mode_switch` the clock value read when
the drawing finished (1600 ms after the tick began), and does not enter the
statistics phase; a tick taken once more than 8000 ms have elapsed runs
`showWaveStats`, then the redraw message, and clears `wave_displayed`; the
tick after that draws again. In the boot run the wave is on display after
ticks 1 to 161, tick 162 shows the statistics, tick 163 redraws; and from every
state of the boot run the flag flips again within 162 ticks, so the cycle
never ends. -/
theorem cycle_runs (oor : ℝ → ℤ) :
    (boot.show_full_wave = true ∧ boot.wave_displayed = false) ∧
    (∀ s : State, s.show_full_wave = true → s.wave_displayed = false →
      (loop oor s).wave_displayed = true ∧
      (loop oor s).last_mode_switch = (s.clock + 1600) % 2 ^ 32 ∧
      (loop oor s).last_mode_switch = (drawFullSineWave oor s).millis ∧
      statsGate (drawFullSineWave oor s) = false ∧
      (loop oor s).log =
        s.log ++ drawEvents oor ++ indicatorEvents (drawFullSineWave oor s) ++
          [Event.delay 50]) ∧
    cursorCols (drawEvents oor) = (List.range 16).flatMap (fun col => [col, col]) ∧
    (∀ s : State, s.show_full_wave = true → s.wave_displayed = true → 8000 < elapsed s →
      (loop oor s).wave_displayed = false ∧
      (loop oor s).log =
        s.log ++ statsEvents ++ redrawEvents ++ indicatorEvents (statsPhase s) ++
          [Event.delay 50] ∧
      (loop oor (loop oor s)).wave_displayed = true ∧
      (loop oor (loop oor s)).log =
        (loop oor s).log ++ drawEvents oor ++
          indicatorEvents (drawFullSineWave oor (loop oor s)) ++ [Event.delay 50]) ∧
    (∀ k : Nat, 1 ≤ k → k ≤ 161 → ((loop oor)^[k] boot).wave_displayed = true) ∧
    ((loop oor)^[162] boot).wave_displayed = false ∧
    ((loop oor)^[163] boot).wave_displayed = true ∧
    (∀ k : Nat, ∃ n : Nat, 1 ≤ n ∧ n ≤ 162 ∧
      ((loop oor)^[n] ((loop oor)^[k] boot)).wave_displayed =
        !((loop oor)^[k] boot).wave_displayed) := by
  obtain ⟨b1, b2, _, _⟩ := boot_fields
  have hdraw : ∀ s : State, s.show_full_wave = true → s.wave_displayed = false →
      (loop oor s).wave_displayed = true ∧
      (loop oor s).last_mode_switch = (s.clock + 1600) % 2 ^ 32 ∧
      (loop oor s).last_mode_switch = (drawFullSineWave oor s).millis ∧
      statsGate (drawFullSineWave oor s) = false ∧
      (loop oor s).log =
        s.log ++ drawEvents oor ++ indicatorEvents (drawFullSineWave oor s) ++
          [Event.delay 50] := by
    intro s hs hw
    obtain ⟨h1, h2, _, h4⟩ := loop_draw_fields oor s hs hw
    refine ⟨h1, h2, ?_, statsGate_after_draw oor s hw, h4⟩
    rw [h2, drawFullSineWave_eq oor s hw]
    rfl
  obtain ⟨r1, r2, r3⟩ := boot_run oor 161 (by norm_num) (by norm_num)
  have h162 : ((loop oor)^[162] boot).wave_displayed = false ∧
      ((loop oor)^[162] boot).show_full_wave = true := by
    rw [Function.iterate_succ_apply']
    exact ⟨(loop_stats_fields oor _ r1 r2 (by rw [r3]; norm_num)).1, by
      rw [loop_show_full_wave oor, r1]⟩
  refine ⟨⟨b1, b2⟩, hdraw, cursorCols_drawEvents oor, ?_, ?_, h162.1, ?_, ?_⟩
  · intro s hs hw hg
    obtain ⟨h1, _, _, h4⟩ := loop_stats_fields oor s hs hw hg
    have hs2 : (loop oor s).show_full_wave = true := by rw [loop_show_full_wave oor, hs]
    obtain ⟨d1, _, _, _, d5⟩ := hdraw (loop oor s) hs2 h1
    exact ⟨h1, h4, d1, d5⟩
  · intro k h1 h2
    exact (boot_run oor k h1 h2).2.1
  · rw [Function.iterate_succ_apply']
    exact (hdraw _ h162.2 h162.1).1
  · intro k
    exact flag_flips oor _ (by rw [iterate_show_full_wave oor, b1])

/-- The first tick after boot puts the wave on the display, and the statistics
tick of `dueState` takes it off. -/
theorem cycle_runs_witness :
    (loop indefiniteCast boot).wave_displayed = true ∧
    (loop indefiniteCast dueState).wave_displayed = false :=
  ⟨((cycle_runs indefiniteCast).2.1 boot (by decide) (by decide)).1,
   ((cycle_runs indefiniteCast).2.2.2.1 dueState rfl rfl (by decide)).1⟩

end SineVisualizer
